import Mathlib

/-!
# Verification of the webrpc type-expression parser and canonicalizer

This file gives a shallow embedding of `schema/var_type.go`: the `VarType`
data model, the recursive-descent parser `ParseVarTypeExpr` (with its helpers
`parseMapExpr`, `isListExpr`, `isMapExpr`, `isValidVarKeyType`,
`getMessageType`), the canonical serializer `buildVarTypeExpr`, the entry
point `VarType.Parse`, and `VarType.UnmarshalJSON`, together with theorems
about them.

Go strings are modelled as `List Char` (`Str`).  Go pointers are modelled as
`Option`: a `nil` pointer is `none`.  Go's in-place mutation of the `*VarType`
argument is modelled by explicit state passing: the parser takes the incoming
`VarType` value and returns the updated one together with an optional error
(`none` = the Go function returned `nil`).  Go runtime panics (nil-pointer
dereference, out-of-range slicing) are modelled in separate "checked" variants
that return `Option` with `none` standing for a panic; theorems relate them to
the total models.

Because Go's recursion in `ParseVarTypeExpr` descends on substrings rather
than subterms, the Lean model takes an explicit fuel argument; the entry point
supplies `length + 1` fuel and a theorem shows any fuel above the expression
length yields the same result, so the fuel is semantically irrelevant.
-/

namespace Webrpc

/-- Go strings, modelled as lists of characters. -/
abbrev Str := List Char

/-- Data-type enumeration.  Modelled from the spec: the Go `DataType`
enumeration lives in `schema/data_type.go`, which is not part of the sources
given; the spec describes it as a closed enumeration of scalar types (string,
boolean, signed/unsigned integers of fixed widths, floating point, byte,
timestamp), an `unknown` sentinel, plus the container/struct kinds used by the
grammar. -/
inductive DataType where
  | T_Unknown | T_Byte | T_Bool
  | T_Uint | T_Uint8 | T_Uint16 | T_Uint32 | T_Uint64
  | T_Int | T_Int8 | T_Int16 | T_Int32 | T_Int64
  | T_Float32 | T_Float64 | T_String | T_Timestamp
  | T_List | T_Map | T_Struct
deriving DecidableEq, Repr

/-- Canonical spelling of each data type.  Modelled from the spec: the Go map
`DataTypeToString` (in the missing `data_type.go`) gives every enumeration
value exactly one canonical spelling; the list marker is `[]` and the map
keyword is `map`. -/
def DataTypeToString : DataType → Str
  | .T_Unknown => "unknown".toList
  | .T_Byte => "byte".toList
  | .T_Bool => "bool".toList
  | .T_Uint => "uint".toList
  | .T_Uint8 => "uint8".toList
  | .T_Uint16 => "uint16".toList
  | .T_Uint32 => "uint32".toList
  | .T_Uint64 => "uint64".toList
  | .T_Int => "int".toList
  | .T_Int8 => "int8".toList
  | .T_Int16 => "int16".toList
  | .T_Int32 => "int32".toList
  | .T_Int64 => "int64".toList
  | .T_Float32 => "float32".toList
  | .T_Float64 => "float64".toList
  | .T_String => "string".toList
  | .T_Timestamp => "timestamp".toList
  | .T_List => "[]".toList
  | .T_Map => "map".toList
  | .T_Struct => "struct".toList

/-- The scalar (primitive) spellings of the registry, as an association list.
Modelled from the spec: the Go map `DataTypeFromString` (in the missing
`data_type.go`) maps each primitive spelling (a fixed closed set, exact
strings, no aliases) back to its enumeration value. -/
def primEntries : List (String × DataType) :=
  [("byte", .T_Byte), ("bool", .T_Bool),
   ("uint", .T_Uint), ("uint8", .T_Uint8), ("uint16", .T_Uint16),
   ("uint32", .T_Uint32), ("uint64", .T_Uint64),
   ("int", .T_Int), ("int8", .T_Int8), ("int16", .T_Int16),
   ("int32", .T_Int32), ("int64", .T_Int64),
   ("float32", .T_Float32), ("float64", .T_Float64),
   ("string", .T_String), ("timestamp", .T_Timestamp)]

/-- Lookup of a spelling in the registry.  Modelled from the spec: a total,
pure lookup that returns the matching primitive type or indicates no match
(Go's `dataType, ok := DataTypeFromString[expr]`). -/
def DataTypeFromString (s : Str) : Option DataType :=
  (primEntries.find? (fun e => e.1.toList == s)).map (fun e => e.2)

/-- A message declaration.  Modelled from the spec: the message catalog is an
ordered collection of message definitions, each with a name used as the
resolution key for struct references; only the name matters here. -/
structure Message where
  Name : Str
deriving DecidableEq, Repr

/-- The schema handed to `Parse`.  Modelled from the spec: the caller-supplied
message catalog (`schema.Messages` is what `getMessageType` iterates). -/
structure WebRPCSchema where
  Messages : List Message
deriving DecidableEq, Repr

/-- Model of `VarStructType` from `var_type.go`; `Msg` models the Go pointer field
`Message *Message` (`none` = nil). -/
structure VarStructType where
  Name : Str
  Msg : Option Message
deriving DecidableEq, Repr

mutual
/-- Model of `VarType` from `var_type.go`.  `expr`/`typ` are the Go fields
`Expr`/`Type`; `lst`, `mp`, `strct` model the pointer fields `List`, `Map`,
`Struct` (`none` = nil). -/
inductive VarType : Type where
  | mk (expr : Str) (typ : DataType) (lst : Option VarListType)
       (mp : Option VarMapType) (strct : Option VarStructType) : VarType
/-- Model of `VarListType` from `var_type.go`; `elem` models `Elem *VarType`. -/
inductive VarListType : Type where
  | mk (elem : Option VarType) : VarListType
/-- Model of `VarMapType` from `var_type.go`; `value` models `Value *VarType`. -/
inductive VarMapType : Type where
  | mk (key : DataType) (value : Option VarType) : VarMapType
end

/-- Accessor for the `Expr` field. -/
def VarType.exprOf : VarType → Str
  | ⟨e, _, _, _, _⟩ => e

/-- Accessor for the `Type` field. -/
def VarType.typOf : VarType → DataType
  | ⟨_, t, _, _, _⟩ => t

/-- Accessor for the `List` pointer field. -/
def VarType.listOf : VarType → Option VarListType
  | ⟨_, _, l, _, _⟩ => l

/-- Accessor for the `Map` pointer field. -/
def VarType.mapOf : VarType → Option VarMapType
  | ⟨_, _, _, m, _⟩ => m

/-- Accessor for the `Struct` pointer field. -/
def VarType.structOf : VarType → Option VarStructType
  | ⟨_, _, _, _, s⟩ => s

/-- The Go zero value `VarType{}` (all fields zero / nil). -/
def emptyVarType : VarType := ⟨[], .T_Unknown, none, none, none⟩

/-- Error values.  Each constructor corresponds to one distinct
`fmt.Errorf` format string in `var_type.go`, carrying exactly the strings the
Go code interpolates.  `fuelOut` corresponds to nothing in the source: it is
the artifact of the fuelled recursion and is proven unreachable for adequate
fuel. -/
inductive Err where
  | jsonEmpty
  | jsonNotString
  | emptyExpr
  | invalidMapExpr (expr : Str)
  | invalidMapSyntax (expr : Str)
  | invalidMapKey (key expr : Str)
  | invalidMapKeyType (key expr : Str)
  | unknownType (expr : Str)
  | fuelOut
deriving DecidableEq, Repr

/-- Model of `isListExpr` from `var_type.go`: the expression starts with the list
marker `[]`. -/
def isListExpr (expr : Str) : Bool :=
  (DataTypeToString .T_List).isPrefixOf expr

/-- Model of `isMapExpr` from `var_type.go`: the expression starts with `map<`. -/
def isMapExpr (expr : Str) : Bool :=
  ((DataTypeToString .T_Map) ++ "<".toList).isPrefixOf expr

/-- Model of Go `strings.TrimPrefix`: drop `pre` from the front of `s` when it is a
prefix, else return `s` unchanged. -/
def trimPre (pre s : Str) : Str :=
  if pre.isPrefixOf s then s.drop pre.length else s

/-- Model of `VarKeyDataTypes` from `var_type.go`. -/
def VarKeyDataTypes : List DataType :=
  [.T_String, .T_Uint, .T_Uint8, .T_Uint16, .T_Uint32, .T_Uint64,
   .T_Int, .T_Int8, .T_Int16, .T_Int32, .T_Int64]

/-- Model of `VarIntegerDataTypes` from `var_type.go`. -/
def VarIntegerDataTypes : List DataType :=
  [.T_Uint, .T_Uint8, .T_Uint16, .T_Uint32, .T_Uint64,
   .T_Int, .T_Int8, .T_Int16, .T_Int32, .T_Int64]

/-- Model of `isValidVarType` from `var_type.go`. -/
def isValidVarType (s : Str) (allowedList : List DataType) : Bool :=
  match DataTypeFromString s with
  | none => false
  | some dt => allowedList.contains dt

/-- Model of `isValidVarKeyType` from `var_type.go`. -/
def isValidVarKeyType (s : Str) : Bool :=
  isValidVarType s VarKeyDataTypes

/-- Model of `getMessageType` from `var_type.go`: first message whose name equals the
expression (Go returns `(nil,false)` when none matches, modelled `none`). -/
def getMessageType (schema : WebRPCSchema) (structExpr : Str) : Option Message :=
  schema.Messages.find? (fun msg => structExpr == msg.Name)

/-- Model of `parseMapExpr` from `var_type.go`.  `.error` carries exactly the string
the Go error message interpolates at that point (note the Go code has already
stripped the `map` keyword, or the angle brackets, when it formats some of
these errors). -/
def parseMapExpr (expr : Str) : Except Err (Str × Str) :=
  if isMapExpr expr = false then .error (.invalidMapExpr expr)
  else
    let e1 := expr.drop (DataTypeToString .T_Map).length
    if e1.take 1 ≠ "<".toList then .error (.invalidMapSyntax e1)
    else if e1.drop (e1.length - 1) ≠ ">".toList then .error (.invalidMapSyntax e1)
    else
      let e2 := (e1.drop 1).dropLast
      match e2.findIdx? (fun c => c = ',') with
      | none => .error (.invalidMapSyntax e2)
      | some p =>
        let key := e2.take p
        let value := e2.drop (p + 1)
        if isValidVarKeyType key = false then .error (.invalidMapKey key e2)
        else .ok (key, value)

/-- Model of `ParseVarTypeExpr` from `var_type.go`, with explicit state passing for the
mutation of `vt` and explicit fuel for the recursion on substrings.  The
result is the updated `vt` (also on error, matching the Go in-place mutation)
plus `none` for a nil error or `some e`. -/
def parseVarTypeExpr : Nat → WebRPCSchema → Str → VarType → VarType × Option Err
  | 0, _, _, vt => (vt, some .fuelOut)
  | fuel + 1, schema, expr, vt =>
    if expr = [] then (vt, none)
    else
      let dataType : DataType :=
        match DataTypeFromString expr with
        | some dt => dt
        | none =>
          if isListExpr expr then .T_List
          else if isMapExpr expr then .T_Map
          else .T_Unknown
      match dataType with
      | .T_List =>
        let expr2 := trimPre (DataTypeToString .T_List) expr
        let res := parseVarTypeExpr fuel schema expr2 emptyVarType
        (⟨expr, .T_List, some ⟨some res.1⟩, vt.mapOf, vt.structOf⟩, res.2)
      | .T_Map =>
        match parseMapExpr expr with
        | .error e => (⟨expr, .T_Map, vt.listOf, vt.mapOf, vt.structOf⟩, some e)
        | .ok (key, value) =>
          match DataTypeFromString key with
          | none =>
            (⟨expr, .T_Map, vt.listOf, vt.mapOf, vt.structOf⟩,
             some (.invalidMapKeyType key expr))
          | some keyDataType =>
            let res := parseVarTypeExpr fuel schema value emptyVarType
            (⟨expr, .T_Map, vt.listOf, some ⟨keyDataType, some res.1⟩, vt.structOf⟩, res.2)
      | .T_Unknown =>
        match getMessageType schema expr with
        | none =>
          (⟨expr, .T_Unknown, vt.listOf, vt.mapOf, vt.structOf⟩,
           some (.unknownType expr))
        | some msg =>
          (⟨expr, .T_Struct, vt.listOf, vt.mapOf, some ⟨expr, some msg⟩⟩, none)
      | dt => (⟨expr, dt, vt.listOf, vt.mapOf, vt.structOf⟩, none)

/-- Model of `buildVarTypeExpr` from `var_type.go`.  Returns `none` exactly where the
Go code would dereference a nil pointer (`vt.List.Elem`, `vt.Map.Value`,
`vt.Struct`) and panic. -/
def buildVarTypeExpr (vt : VarType) (expr : Str) : Option Str :=
  match vt with
  | ⟨_, .T_Unknown, _, _, _⟩ => some "<unknown>".toList
  | ⟨_, .T_List, l, _, _⟩ =>
    match l with
    | some ⟨some elem⟩ =>
      (buildVarTypeExpr elem expr).map (fun s => expr ++ "[]".toList ++ s)
    | _ => none
  | ⟨_, .T_Map, _, m, _⟩ =>
    match m with
    | some ⟨k, some v⟩ =>
      (buildVarTypeExpr v []).map
        (fun s => expr ++ "map<".toList ++ DataTypeToString k ++ ",".toList
                    ++ s ++ ">".toList)
    | _ => none
  | ⟨_, .T_Struct, _, _, st⟩ =>
    match st with
    | some s => some (expr ++ s.Name)
    | none => none
  | ⟨_, dt, _, _, _⟩ => some (expr ++ DataTypeToString dt)

/-- Model of `VarType.Parse` from `var_type.go`: reject an empty `Expr`, run the
recursive parser (with fuel one more than the expression length, shown
adequate by `parseVarTypeExpr` fuel-irrelevance), then overwrite `Expr` with
the canonical serialization.  The outer `Option` models a Go panic inside
`buildVarTypeExpr` (`none` = panic). -/
def VarType.Parse (schema : WebRPCSchema) (t : VarType) : Option (VarType × Option Err) :=
  if t.exprOf = [] then some (t, some .emptyExpr)
  else
    match parseVarTypeExpr (t.exprOf.length + 1) schema t.exprOf t with
    | (t2, some e) => some (t2, some e)
    | (t2, none) =>
      match buildVarTypeExpr t2 [] with
      | none => none
      | some canon => some (⟨canon, t2.typOf, t2.listOf, t2.mapOf, t2.structOf⟩, none)

/-- Model of `VarType.UnmarshalJSON` from `var_type.go`, as a pure function from the
raw JSON bytes to the new `Expr` value (the only field it sets) or an error.
The two `jsonNotString` cases share one Go format string. -/
def UnmarshalJSON (b : Str) : Except Err Str :=
  if b.length ≤ 2 then .error .jsonEmpty
  else
    if b.take 1 ≠ "\"".toList then .error .jsonNotString
    else if b.drop (b.length - 1) ≠ "\"".toList then .error .jsonNotString
    else .ok ((b.drop 1).dropLast)

/-- A fresh `VarType` holding only a raw expression, as a caller builds before
`Parse` (zero value with `Expr` set). -/
def mkRaw (s : Str) : VarType := ⟨s, .T_Unknown, none, none, none⟩

/-- Parse a raw expression string through the `VarType.Parse` entry point. -/
def parseText (schema : WebRPCSchema) (s : Str) : Option (VarType × Option Err) :=
  VarType.Parse schema (mkRaw s)

/-- Observe only the error outcome of `parseText`. -/
def parseOutcome (schema : WebRPCSchema) (s : Str) : Option (Option Err) :=
  (parseText schema s).map (fun r => r.2)

/-- Observe only the resulting canonical `Expr` of `parseText`. -/
def canonOf (schema : WebRPCSchema) (s : Str) : Option Str :=
  (parseText schema s).map (fun r => r.1.exprOf)

/-- The empty message catalog. -/
def emptySchema : WebRPCSchema := ⟨[]⟩

/-- Returns `true` iff the tree contains an Unknown-kind node, following the payload
relevant to each node's kind. -/
def hasUnknownB : VarType → Bool
  | ⟨_, .T_Unknown, _, _, _⟩ => true
  | ⟨_, .T_List, some ⟨some e⟩, _, _⟩ => hasUnknownB e
  | ⟨_, .T_List, _, _, _⟩ => false
  | ⟨_, .T_Map, _, some ⟨_, some v⟩, _⟩ => hasUnknownB v
  | _ => false

/-- Returns `true` iff every node's kind-relevant payload pointers are non-nil:
a List node has `lst = some` with a non-nil `elem`, a Map node has `mp = some`
with a non-nil `value`, a Struct node has `strct = some`, recursively. -/
def payloadsOK : VarType → Bool
  | ⟨_, .T_List, some ⟨some e⟩, _, _⟩ => payloadsOK e
  | ⟨_, .T_List, _, _, _⟩ => false
  | ⟨_, .T_Map, _, some ⟨_, some v⟩, _⟩ => payloadsOK v
  | ⟨_, .T_Map, _, _, _⟩ => false
  | ⟨_, .T_Struct, _, _, some _⟩ => true
  | ⟨_, .T_Struct, _, _, none⟩ => false
  | _ => true

/-- Returns `true` iff the outcome is the `invalid map key type` error of
`ParseVarTypeExpr`'s map case (the re-lookup error branch). -/
def isKeyTypeErr : Option Err → Bool
  | some (.invalidMapKeyType _ _) => true
  | _ => false

/-- Returns `true` iff the outcome is an `invalid map syntax` error. -/
def isMapSyntaxErr : Option Err → Bool
  | some (.invalidMapSyntax _) => true
  | _ => false

/-- Go slicing `s[i:j]`: defined only when `i ≤ j ≤ len(s)` — out of range is
a runtime panic, modelled as `none`. -/
def goSlice (s : Str) (i j : Nat) : Option Str :=
  if i ≤ j ∧ j ≤ s.length then some ((s.take j).drop i) else none

/-- Go slicing `s[i:]`. -/
def goSliceFrom (s : Str) (i : Nat) : Option Str := goSlice s i s.length

/-- Variant of `parseMapExpr` with every raw Go slicing operation checked: `none` models
a Go runtime panic.  The Go index arithmetic `len(expr)-1` is over `int`, so
a zero-length slice would make it negative and panic; that case is modelled
by the explicit length match. -/
def parseMapExprChk (expr : Str) : Option (Except Err (Str × Str)) :=
  if isMapExpr expr = false then some (.error (.invalidMapExpr expr)) else
  match goSliceFrom expr (DataTypeToString .T_Map).length with
  | none => none
  | some e1 =>
    match goSlice e1 0 1 with
    | none => none
    | some c1 =>
      if c1 ≠ "<".toList then some (.error (.invalidMapSyntax e1)) else
      match e1.length with
      | 0 => none
      | n + 1 =>
        match goSliceFrom e1 n with
        | none => none
        | some c2 =>
          if c2 ≠ ">".toList then some (.error (.invalidMapSyntax e1)) else
          match goSlice e1 1 n with
          | none => none
          | some e2 =>
            match e2.findIdx? (fun c => c = ',') with
            | none => some (.error (.invalidMapSyntax e2))
            | some p =>
              match goSlice e2 0 p, goSliceFrom e2 (p + 1) with
              | some key, some value =>
                if isValidVarKeyType key = false then
                  some (.error (.invalidMapKey key e2))
                else some (.ok (key, value))
              | _, _ => none

/-- Variant of `VarType.UnmarshalJSON` with every raw Go slicing operation checked:
`none` models a Go runtime panic. -/
def UnmarshalJSONChk (b : Str) : Option (Except Err Str) :=
  if b.length ≤ 2 then some (.error .jsonEmpty) else
  match goSlice b 0 1 with
  | none => none
  | some c1 =>
    if c1 ≠ "\"".toList then some (.error .jsonNotString) else
    match b.length with
    | 0 => none
    | n + 1 =>
      match goSliceFrom b n with
      | none => none
      | some c2 =>
        if c2 ≠ "\"".toList then some (.error .jsonNotString) else
        match goSliceFrom b 1 with
        | none => none
        | some s1 =>
          match s1.length with
          | 0 => none
          | m + 1 =>
            match goSlice s1 0 m with
            | none => none
            | some s2 => some (.ok s2)

/-! ## Registry lemmas -/

theorem fromString_sound {s : Str} {dt : DataType}
    (h : DataTypeFromString s = some dt) :
    DataTypeToString dt = s ∧ dt ≠ .T_List ∧ dt ≠ .T_Map ∧ dt ≠ .T_Struct
      ∧ dt ≠ .T_Unknown := by
  unfold DataTypeFromString at h
  rcases Option.map_eq_some'.mp h with ⟨e, hfind, hdt⟩
  have hmem := List.mem_of_find?_eq_some hfind
  have hpred := List.find?_some hfind
  have hs : e.1.toList = s := by simpa using hpred
  subst hdt
  subst hs
  fin_cases hmem <;> decide

/-! ## Shape lemmas for the expression classifiers -/

theorem isListExpr_decomp {expr : Str} (h : isListExpr expr = true) :
    expr = '[' :: ']' :: expr.drop 2 := by
  unfold isListExpr at h
  rcases List.isPrefixOf_iff_prefix.mp h with ⟨t, ht⟩
  have : expr.drop 2 = t := by rw [← ht]; rfl
  rw [this, ← ht]; rfl

theorem isMapExpr_decomp {expr : Str} (h : isMapExpr expr = true) :
    expr = 'm' :: 'a' :: 'p' :: '<' :: expr.drop 4 := by
  unfold isMapExpr at h
  rcases List.isPrefixOf_iff_prefix.mp h with ⟨t, ht⟩
  have : expr.drop 4 = t := by rw [← ht]; rfl
  rw [this, ← ht]; rfl

theorem isMapExpr_of_append {k : Str} :
    isMapExpr ("map<".toList ++ k) = true := by
  unfold isMapExpr
  exact List.isPrefixOf_iff_prefix.mpr ⟨k, rfl⟩

/-! ## One-step unfolding lemmas for the parser -/

theorem parse_step_empty (fuel : Nat) (schema : WebRPCSchema) (vt : VarType) :
    parseVarTypeExpr (fuel + 1) schema [] vt = (vt, none) := rfl

theorem parse_step_prim {fuel : Nat} {schema : WebRPCSchema} {expr : Str}
    {vt : VarType} {dt : DataType}
    (hne : expr ≠ []) (h : DataTypeFromString expr = some dt)
    (hL : dt ≠ .T_List) (hM : dt ≠ .T_Map) (hU : dt ≠ .T_Unknown) :
    parseVarTypeExpr (fuel + 1) schema expr vt
      = (⟨expr, dt, vt.listOf, vt.mapOf, vt.structOf⟩, none) := by
  cases dt <;> simp_all [parseVarTypeExpr]

theorem parse_step_list {fuel : Nat} {schema : WebRPCSchema} {expr : Str}
    {vt : VarType}
    (h : DataTypeFromString expr = none) (hl : isListExpr expr = true) :
    parseVarTypeExpr (fuel + 1) schema expr vt
      = (⟨expr, .T_List,
          some ⟨some (parseVarTypeExpr fuel schema (expr.drop 2) emptyVarType).1⟩,
          vt.mapOf, vt.structOf⟩,
         (parseVarTypeExpr fuel schema (expr.drop 2) emptyVarType).2) := by
  have hne : expr ≠ [] := by
    rintro rfl; rw [isListExpr] at hl; simp [List.isPrefixOf] at hl
  have hpre : ('[' :: ']' :: []) <+: expr :=
    List.isPrefixOf_iff_prefix.mp (show (DataTypeToString .T_List).isPrefixOf expr = true from hl)
  have ht : trimPre (DataTypeToString .T_List) expr = expr.drop 2 := by
    simp [trimPre, DataTypeToString, hpre]
  simp [parseVarTypeExpr, h, hne, hl, ht]

theorem parse_step_map_err {fuel : Nat} {schema : WebRPCSchema} {expr : Str}
    {vt : VarType} {e : Err}
    (h : DataTypeFromString expr = none) (hl : isListExpr expr = false)
    (hm : isMapExpr expr = true) (hp : parseMapExpr expr = .error e) :
    parseVarTypeExpr (fuel + 1) schema expr vt
      = (⟨expr, .T_Map, vt.listOf, vt.mapOf, vt.structOf⟩, some e) := by
  have hne : expr ≠ [] := by
    rintro rfl; rw [isMapExpr] at hm; simp [List.isPrefixOf] at hm
  simp [parseVarTypeExpr, h, hne, hl, hm, hp]

theorem parse_step_map_keymiss {fuel : Nat} {schema : WebRPCSchema} {expr : Str}
    {vt : VarType} {k v : Str}
    (h : DataTypeFromString expr = none) (hl : isListExpr expr = false)
    (hm : isMapExpr expr = true) (hp : parseMapExpr expr = .ok (k, v))
    (hk : DataTypeFromString k = none) :
    parseVarTypeExpr (fuel + 1) schema expr vt
      = (⟨expr, .T_Map, vt.listOf, vt.mapOf, vt.structOf⟩,
         some (.invalidMapKeyType k expr)) := by
  have hne : expr ≠ [] := by
    rintro rfl; rw [isMapExpr] at hm; simp [List.isPrefixOf] at hm
  simp [parseVarTypeExpr, h, hne, hl, hm, hp, hk]

theorem parse_step_map_ok {fuel : Nat} {schema : WebRPCSchema} {expr : Str}
    {vt : VarType} {k v : Str} {kd : DataType}
    (h : DataTypeFromString expr = none) (hl : isListExpr expr = false)
    (hm : isMapExpr expr = true) (hp : parseMapExpr expr = .ok (k, v))
    (hk : DataTypeFromString k = some kd) :
    parseVarTypeExpr (fuel + 1) schema expr vt
      = (⟨expr, .T_Map, vt.listOf,
          some ⟨kd, some (parseVarTypeExpr fuel schema v emptyVarType).1⟩,
          vt.structOf⟩,
         (parseVarTypeExpr fuel schema v emptyVarType).2) := by
  have hne : expr ≠ [] := by
    rintro rfl; rw [isMapExpr] at hm; simp [List.isPrefixOf] at hm
  simp [parseVarTypeExpr, h, hne, hl, hm, hp, hk]

theorem parse_step_struct_found {fuel : Nat} {schema : WebRPCSchema} {expr : Str}
    {vt : VarType} {msg : Message}
    (h : DataTypeFromString expr = none) (hl : isListExpr expr = false)
    (hm : isMapExpr expr = false) (hne : expr ≠ [])
    (hg : getMessageType schema expr = some msg) :
    parseVarTypeExpr (fuel + 1) schema expr vt
      = (⟨expr, .T_Struct, vt.listOf, vt.mapOf, some ⟨expr, some msg⟩⟩, none) := by
  simp [parseVarTypeExpr, h, hne, hl, hm, hg]

/-! ## Characterization of `parseMapExpr` -/

theorem findIdx_comma_decomp {l : Str} {p : Nat}
    (h : l.findIdx? (fun c => c = ',') = some p) :
    l = l.take p ++ ',' :: l.drop (p + 1)
      ∧ (l.take p).contains ',' = false ∧ p < l.length := by
  rw [List.findIdx?_eq_some_iff_getElem] at h
  obtain ⟨hlt, hp, hbefore⟩ := h
  have hc : l[p] = ',' := by simpa using hp
  refine ⟨?_, ?_, hlt⟩
  · conv_lhs => rw [← List.take_append_drop p l]
    rw [← List.getElem_cons_drop l p hlt, hc]
  · rw [← Bool.not_eq_true]
    intro hcon
    have hmem : ',' ∈ l.take p := by
      simpa [List.contains_eq_any_beq, List.any_eq_true] using hcon
    obtain ⟨j, hj, hje⟩ := List.getElem_of_mem hmem
    have hjp : j < p := by
      have := hj; simp [List.length_take] at this; omega
    have hjl : j < l.length := Nat.lt_trans hjp hlt
    have hlj : l[j] = ',' := by
      rw [List.getElem_take' l hjl hjp]
      exact hje
    exact (hbefore j hjp) (by simpa using hlj)

theorem parseMapExpr_ok_decomp {expr k v : Str}
    (h : parseMapExpr expr = .ok (k, v)) :
    expr = "map<".toList ++ k ++ ",".toList ++ v ++ ">".toList
      ∧ k.contains ',' = false ∧ isValidVarKeyType k = true := by
  unfold parseMapExpr at h
  cases hm : isMapExpr expr with
  | false => rw [hm] at h; simp at h
  | true =>
    rw [hm] at h
    have hdec := isMapExpr_decomp hm
    generalize hrest : expr.drop 4 = rest at hdec
    rcases List.eq_nil_or_concat rest with hnil | ⟨mid, c, hcat⟩
    · rw [hnil] at hdec
      rw [hdec] at h
      simp [DataTypeToString] at h
    · rw [List.concat_eq_append] at hcat
      rw [hcat] at hdec
      rw [hdec] at h ⊢
      clear hdec hrest hm hcat
      simp only [DataTypeToString, String.toList, Bool.true_eq_false, if_false,
        List.drop_succ_cons, List.drop_zero, List.length_cons, List.length_append,
        List.length_nil] at h
      by_cases hc : c = '>'
      · rw [hc] at h ⊢
        rw [show mid.length + 0 + 1 + 1 - 1 = mid.length + 1 by omega] at h
        rw [List.drop_succ_cons, List.drop_left] at h
        simp only [ne_eq, List.cons.injEq, and_true, not_true_eq_false, if_false,
          not_false_eq_true, if_true, ite_not, List.dropLast_concat] at h
        rw [if_pos (show List.take 1 ('<' :: (mid ++ ['>'])) = ['<'] from rfl)] at h
        cases hidx : mid.findIdx? (fun ch => ch = ',') with
        | none => rw [hidx] at h; simp at h
        | some p =>
          rw [hidx] at h
          simp only [] at h
          obtain ⟨hsplit, hnocomma, _⟩ := findIdx_comma_decomp hidx
          cases hkey : isValidVarKeyType (mid.take p) with
          | false => rw [hkey] at h; simp at h
          | true =>
            rw [hkey] at h
            simp only [Bool.true_eq_false, if_false, Except.ok.injEq,
              Prod.mk.injEq] at h
            obtain ⟨hk, hv⟩ := h
            rw [← hk, ← hv]
            refine ⟨?_, hnocomma, hkey⟩
            conv_lhs => rw [hsplit]
            simp
      · exfalso
        rw [show mid.length + 0 + 1 + 1 - 1 = mid.length + 1 by omega] at h
        rw [List.drop_succ_cons, List.drop_left] at h
        simp [hc] at h

theorem parseMapExpr_ok_len {expr k v : Str}
    (h : parseMapExpr expr = .ok (k, v)) :
    v.length < expr.length ∧ expr ≠ [] := by
  obtain ⟨hsh, -, -⟩ := parseMapExpr_ok_decomp h
  subst hsh
  constructor
  · simp; omega
  · simp

theorem parseMapExpr_ok_isMap {expr k v : Str}
    (h : parseMapExpr expr = .ok (k, v)) :
    isMapExpr expr = true := by
  obtain ⟨hsh, -, -⟩ := parseMapExpr_ok_decomp h
  subst hsh
  unfold isMapExpr
  refine List.isPrefixOf_iff_prefix.mpr ⟨k ++ ",".toList ++ v ++ ">".toList, ?_⟩
  simp [DataTypeToString]

theorem parseMapExpr_ok_key_lookup {expr k v : Str}
    (h : parseMapExpr expr = .ok (k, v)) :
    ∃ kd, DataTypeFromString k = some kd := by
  obtain ⟨-, -, hkey⟩ := parseMapExpr_ok_decomp h
  unfold isValidVarKeyType isValidVarType at hkey
  cases hk : DataTypeFromString k with
  | none => rw [hk] at hkey; simp at hkey
  | some kd => exact ⟨kd, rfl⟩

theorem parseMapExpr_err_kind {expr : Str} {e : Err}
    (h : parseMapExpr expr = .error e) :
    isKeyTypeErr (some e) = false := by
  unfold parseMapExpr at h
  cases hm : isMapExpr expr with
  | false =>
    rw [hm] at h; simp at h
    rw [← h]; rfl
  | true =>
    rw [hm] at h
    simp only [Bool.true_eq_false, if_false] at h
    split at h
    · simp at h; rw [← h]; rfl
    · split at h
      · simp at h; rw [← h]; rfl
      · split at h
        · simp at h; rw [← h]; rfl
        · split at h
          · simp at h; rw [← h]; rfl
          · simp at h

theorem parse_step_struct_missing {fuel : Nat} {schema : WebRPCSchema} {expr : Str}
    {vt : VarType}
    (h : DataTypeFromString expr = none) (hl : isListExpr expr = false)
    (hm : isMapExpr expr = false) (hne : expr ≠ [])
    (hg : getMessageType schema expr = none) :
    parseVarTypeExpr (fuel + 1) schema expr vt
      = (⟨expr, .T_Unknown, vt.listOf, vt.mapOf, vt.structOf⟩,
         some (.unknownType expr)) := by
  simp [parseVarTypeExpr, h, hne, hl, hm, hg]

/-! ## Fuel irrelevance -/

theorem parse_fuel_congr :
    ∀ (f g : Nat) (schema : WebRPCSchema) (expr : Str) (vt : VarType),
      expr.length < f → expr.length < g →
      parseVarTypeExpr f schema expr vt = parseVarTypeExpr g schema expr vt := by
  intro f
  induction f with
  | zero => intro g schema expr vt hf hg; omega
  | succ f ih =>
    intro g schema expr vt hf hg
    cases g with
    | zero => omega
    | succ g =>
      by_cases hne : expr = []
      · subst hne; rfl
      · cases hfrom : DataTypeFromString expr with
        | some dt =>
          obtain ⟨-, hL, hM, -, hU⟩ := fromString_sound hfrom
          rw [parse_step_prim hne hfrom hL hM hU,
            parse_step_prim hne hfrom hL hM hU]
        | none =>
          cases hl : isListExpr expr with
          | true =>
            have hdec := isListExpr_decomp hl
            have hlen : expr.length = (expr.drop 2).length + 2 := by
              conv_lhs => rw [hdec]
              simp
            rw [parse_step_list hfrom hl, parse_step_list hfrom hl,
              ih g schema (expr.drop 2) emptyVarType (by omega) (by omega)]
          | false =>
            cases hm2 : isMapExpr expr with
            | true =>
              cases hp : parseMapExpr expr with
              | error e =>
                rw [parse_step_map_err hfrom hl hm2 hp,
                  parse_step_map_err hfrom hl hm2 hp]
              | ok kv =>
                obtain ⟨k, v⟩ := kv
                cases hk : DataTypeFromString k with
                | none =>
                  rw [parse_step_map_keymiss hfrom hl hm2 hp hk,
                    parse_step_map_keymiss hfrom hl hm2 hp hk]
                | some kd =>
                  obtain ⟨hvlen, -⟩ := parseMapExpr_ok_len hp
                  rw [parse_step_map_ok hfrom hl hm2 hp hk,
                    parse_step_map_ok hfrom hl hm2 hp hk,
                    ih g schema v emptyVarType (by omega) (by omega)]
            | false =>
              cases hg2 : getMessageType schema expr with
              | none =>
                rw [parse_step_struct_missing hfrom hl hm2 hne hg2,
                  parse_step_struct_missing hfrom hl hm2 hne hg2]
              | some msg =>
                rw [parse_step_struct_found hfrom hl hm2 hne hg2,
                  parse_step_struct_found hfrom hl hm2 hne hg2]

/-! ## Serializer lemmas -/

theorem build_default {e ex : Str} {dt : DataType}
    {l : Option VarListType} {m : Option VarMapType} {s : Option VarStructType}
    (hL : dt ≠ .T_List) (hM : dt ≠ .T_Map) (hS : dt ≠ .T_Struct)
    (hU : dt ≠ .T_Unknown) :
    buildVarTypeExpr ⟨e, dt, l, m, s⟩ ex = some (ex ++ DataTypeToString dt) := by
  cases dt <;> simp_all [buildVarTypeExpr]

theorem payloadsOK_default {e : Str} {dt : DataType}
    {l : Option VarListType} {m : Option VarMapType} {s : Option VarStructType}
    (hL : dt ≠ .T_List) (hM : dt ≠ .T_Map) (hS : dt ≠ .T_Struct) :
    payloadsOK ⟨e, dt, l, m, s⟩ = true := by
  cases dt <;> simp_all [payloadsOK]

theorem hasUnknownB_mk_expr (e e' : Str) {ty : DataType}
    {l : Option VarListType} {m : Option VarMapType} {s : Option VarStructType} :
    hasUnknownB ⟨e, ty, l, m, s⟩ = hasUnknownB ⟨e', ty, l, m, s⟩ := by
  cases ty <;> try rfl
  case T_List => rcases l with _ | ⟨_ | el⟩ <;> rfl
  case T_Map => rcases m with _ | ⟨kd, _ | vv⟩ <;> rfl

theorem payloadsOK_mk_expr (e e' : Str) {ty : DataType}
    {l : Option VarListType} {m : Option VarMapType} {s : Option VarStructType} :
    payloadsOK ⟨e, ty, l, m, s⟩ = payloadsOK ⟨e', ty, l, m, s⟩ := by
  cases ty <;> try rfl
  case T_List => rcases l with _ | ⟨_ | el⟩ <;> rfl
  case T_Map => rcases m with _ | ⟨kd, _ | vv⟩ <;> rfl
  case T_Struct => rcases s with _ | st <;> rfl

/-! ## The serializer succeeds on every successfully parsed tree -/

theorem parse_build_isSome :
    ∀ (fuel : Nat) (schema : WebRPCSchema) (expr : Str) (vt vt' : VarType),
      parseVarTypeExpr fuel schema expr vt = (vt', none) → expr ≠ [] →
      ∀ ex, (buildVarTypeExpr vt' ex).isSome = true := by
  intro fuel
  induction fuel with
  | zero =>
    intro schema expr vt vt' h hne ex
    simp [parseVarTypeExpr] at h
  | succ fuel ih =>
    intro schema expr vt vt' h hne ex
    cases hfrom : DataTypeFromString expr with
    | some dt =>
      obtain ⟨-, hL, hM, hS, hU⟩ := fromString_sound hfrom
      rw [parse_step_prim hne hfrom hL hM hU] at h
      obtain ⟨rfl, -⟩ := Prod.mk.injEq .. ▸ h
      rw [build_default hL hM hS hU]
      rfl
    | none =>
      cases hl : isListExpr expr with
      | true =>
        rw [parse_step_list hfrom hl] at h
        rw [Prod.mk.injEq] at h
        obtain ⟨rfl, hsub⟩ := h
        by_cases hsube : expr.drop 2 = []
        · rw [hsube] at hsub ⊢
          cases fuel with
          | zero => simp [parseVarTypeExpr] at hsub
          | succ fuel =>
            rw [parse_step_empty] at hsub ⊢
            simp [buildVarTypeExpr, emptyVarType]
        · have hsp : parseVarTypeExpr fuel schema (expr.drop 2) emptyVarType
              = ((parseVarTypeExpr fuel schema (expr.drop 2) emptyVarType).1, none) := by
            rw [Prod.ext_iff]; exact ⟨rfl, hsub⟩
          have := ih schema (expr.drop 2) emptyVarType _ hsp hsube ex
          simp [buildVarTypeExpr]
          exact this
      | false =>
        cases hm2 : isMapExpr expr with
        | true =>
          cases hp : parseMapExpr expr with
          | error e =>
            rw [parse_step_map_err hfrom hl hm2 hp] at h
            simp at h
          | ok kv =>
            obtain ⟨k, v⟩ := kv
            cases hk : DataTypeFromString k with
            | none =>
              rw [parse_step_map_keymiss hfrom hl hm2 hp hk] at h
              simp at h
            | some kd =>
              rw [parse_step_map_ok hfrom hl hm2 hp hk] at h
              rw [Prod.mk.injEq] at h
              obtain ⟨rfl, hsub⟩ := h
              by_cases hsube : v = []
              · rw [hsube] at hsub ⊢
                cases fuel with
                | zero => simp [parseVarTypeExpr] at hsub
                | succ fuel =>
                  rw [parse_step_empty] at hsub ⊢
                  simp [buildVarTypeExpr, emptyVarType]
              · have hsp : parseVarTypeExpr fuel schema v emptyVarType
                    = ((parseVarTypeExpr fuel schema v emptyVarType).1, none) := by
                  rw [Prod.ext_iff]; exact ⟨rfl, hsub⟩
                have := ih schema v emptyVarType _ hsp hsube []
                simp [buildVarTypeExpr]
                exact this
        | false =>
          cases hg2 : getMessageType schema expr with
          | none =>
            rw [parse_step_struct_missing hfrom hl hm2 hne hg2] at h
            simp at h
          | some msg =>
            rw [parse_step_struct_found hfrom hl hm2 hne hg2] at h
            rw [Prod.mk.injEq] at h
            obtain ⟨rfl, -⟩ := h
            simp [buildVarTypeExpr]

/-! ## Canonical text of trees with no Unknown node equals the raw input -/

theorem parse_canon :
    ∀ (fuel : Nat) (schema : WebRPCSchema) (expr : Str) (vt vt' : VarType),
      parseVarTypeExpr fuel schema expr vt = (vt', none) → expr ≠ [] →
      hasUnknownB vt' = false → buildVarTypeExpr vt' [] = some expr := by
  intro fuel
  induction fuel with
  | zero =>
    intro schema expr vt vt' h hne hu
    simp [parseVarTypeExpr] at h
  | succ fuel ih =>
    intro schema expr vt vt' h hne hu
    cases hfrom : DataTypeFromString expr with
    | some dt =>
      obtain ⟨hTo, hL, hM, hS, hU⟩ := fromString_sound hfrom
      rw [parse_step_prim hne hfrom hL hM hU] at h
      rw [Prod.mk.injEq] at h
      obtain ⟨rfl, -⟩ := h
      rw [build_default hL hM hS hU, hTo]
      rfl
    | none =>
      cases hl : isListExpr expr with
      | true =>
        rw [parse_step_list hfrom hl] at h
        rw [Prod.mk.injEq] at h
        obtain ⟨rfl, hsub⟩ := h
        have hue : hasUnknownB (parseVarTypeExpr fuel schema (expr.drop 2) emptyVarType).1
            = false := by simpa [hasUnknownB] using hu
        by_cases hsube : expr.drop 2 = []
        · exfalso
          rw [hsube] at hsub hue
          cases fuel with
          | zero => simp [parseVarTypeExpr] at hsub
          | succ fuel =>
            rw [parse_step_empty] at hue
            simp [emptyVarType, hasUnknownB] at hue
        · have hsp : parseVarTypeExpr fuel schema (expr.drop 2) emptyVarType
              = ((parseVarTypeExpr fuel schema (expr.drop 2) emptyVarType).1, none) := by
            rw [Prod.ext_iff]; exact ⟨rfl, hsub⟩
          have hb := ih schema (expr.drop 2) emptyVarType _ hsp hsube hue
          simp [buildVarTypeExpr, hb]
          conv_rhs => rw [isListExpr_decomp hl]
      | false =>
        cases hm2 : isMapExpr expr with
        | true =>
          cases hp : parseMapExpr expr with
          | error e =>
            rw [parse_step_map_err hfrom hl hm2 hp] at h
            simp at h
          | ok kv =>
            obtain ⟨k, v⟩ := kv
            cases hk : DataTypeFromString k with
            | none =>
              rw [parse_step_map_keymiss hfrom hl hm2 hp hk] at h
              simp at h
            | some kd =>
              rw [parse_step_map_ok hfrom hl hm2 hp hk] at h
              rw [Prod.mk.injEq] at h
              obtain ⟨rfl, hsub⟩ := h
              have hue : hasUnknownB (parseVarTypeExpr fuel schema v emptyVarType).1
                  = false := by simpa [hasUnknownB] using hu
              obtain ⟨hToK, -, -, -, -⟩ := fromString_sound hk
              by_cases hsube : v = []
              · exfalso
                rw [hsube] at hsub hue
                cases fuel with
                | zero => simp [parseVarTypeExpr] at hsub
                | succ fuel =>
                  rw [parse_step_empty] at hue
                  simp [emptyVarType, hasUnknownB] at hue
              · have hsp : parseVarTypeExpr fuel schema v emptyVarType
                    = ((parseVarTypeExpr fuel schema v emptyVarType).1, none) := by
                  rw [Prod.ext_iff]; exact ⟨rfl, hsub⟩
                have hb := ih schema v emptyVarType _ hsp hsube hue
                simp [buildVarTypeExpr, hb, hToK]
                obtain ⟨hsh, -, -⟩ := parseMapExpr_ok_decomp hp
                rw [hsh]
                simp [DataTypeToString]
        | false =>
          cases hg2 : getMessageType schema expr with
          | none =>
            rw [parse_step_struct_missing hfrom hl hm2 hne hg2] at h
            simp at h
          | some msg =>
            rw [parse_step_struct_found hfrom hl hm2 hne hg2] at h
            rw [Prod.mk.injEq] at h
            obtain ⟨rfl, -⟩ := h
            simp [buildVarTypeExpr]

/-! ## Successful parses populate every kind-relevant payload pointer -/

theorem parse_payloads :
    ∀ (fuel : Nat) (schema : WebRPCSchema) (expr : Str) (vt vt' : VarType),
      parseVarTypeExpr fuel schema expr vt = (vt', none) →
      payloadsOK vt = true → payloadsOK vt' = true := by
  intro fuel
  induction fuel with
  | zero =>
    intro schema expr vt vt' h hvt
    simp [parseVarTypeExpr] at h
  | succ fuel ih =>
    intro schema expr vt vt' h hvt
    by_cases hne : expr = []
    · subst hne
      rw [parse_step_empty] at h
      rw [Prod.mk.injEq] at h
      obtain ⟨rfl, -⟩ := h
      exact hvt
    · cases hfrom : DataTypeFromString expr with
      | some dt =>
        obtain ⟨-, hL, hM, hS, hU⟩ := fromString_sound hfrom
        rw [parse_step_prim hne hfrom hL hM hU] at h
        rw [Prod.mk.injEq] at h
        obtain ⟨rfl, -⟩ := h
        exact payloadsOK_default hL hM hS
      | none =>
        cases hl : isListExpr expr with
        | true =>
          rw [parse_step_list hfrom hl] at h
          rw [Prod.mk.injEq] at h
          obtain ⟨rfl, hsub⟩ := h
          have hsp : parseVarTypeExpr fuel schema (expr.drop 2) emptyVarType
              = ((parseVarTypeExpr fuel schema (expr.drop 2) emptyVarType).1, none) := by
            rw [Prod.ext_iff]; exact ⟨rfl, hsub⟩
          have hsubok := ih schema (expr.drop 2) emptyVarType _ hsp rfl
          simpa [payloadsOK] using hsubok
        | false =>
          cases hm2 : isMapExpr expr with
          | true =>
            cases hp : parseMapExpr expr with
            | error e =>
              rw [parse_step_map_err hfrom hl hm2 hp] at h
              simp at h
            | ok kv =>
              obtain ⟨k, v⟩ := kv
              cases hk : DataTypeFromString k with
              | none =>
                rw [parse_step_map_keymiss hfrom hl hm2 hp hk] at h
                simp at h
              | some kd =>
                rw [parse_step_map_ok hfrom hl hm2 hp hk] at h
                rw [Prod.mk.injEq] at h
                obtain ⟨rfl, hsub⟩ := h
                have hsp : parseVarTypeExpr fuel schema v emptyVarType
                    = ((parseVarTypeExpr fuel schema v emptyVarType).1, none) := by
                  rw [Prod.ext_iff]; exact ⟨rfl, hsub⟩
                have hsubok := ih schema v emptyVarType _ hsp rfl
                simpa [payloadsOK] using hsubok
          | false =>
            cases hg2 : getMessageType schema expr with
            | none =>
              rw [parse_step_struct_missing hfrom hl hm2 hne hg2] at h
              simp at h
            | some msg =>
              rw [parse_step_struct_found hfrom hl hm2 hne hg2] at h
              rw [Prod.mk.injEq] at h
              obtain ⟨rfl, -⟩ := h
              simp [payloadsOK]

/-! ## The parser never returns the key re-lookup error -/

theorem parse_no_keytype_err :
    ∀ (fuel : Nat) (schema : WebRPCSchema) (expr : Str) (vt : VarType),
      isKeyTypeErr (parseVarTypeExpr fuel schema expr vt).2 = false := by
  intro fuel
  induction fuel with
  | zero => intro schema expr vt; rfl
  | succ fuel ih =>
    intro schema expr vt
    by_cases hne : expr = []
    · subst hne; rw [parse_step_empty]; rfl
    · cases hfrom : DataTypeFromString expr with
      | some dt =>
        obtain ⟨-, hL, hM, -, hU⟩ := fromString_sound hfrom
        rw [parse_step_prim hne hfrom hL hM hU]; rfl
      | none =>
        cases hl : isListExpr expr with
        | true =>
          rw [parse_step_list hfrom hl]
          exact ih schema (expr.drop 2) emptyVarType
        | false =>
          cases hm2 : isMapExpr expr with
          | true =>
            cases hp : parseMapExpr expr with
            | error e =>
              rw [parse_step_map_err hfrom hl hm2 hp]
              exact parseMapExpr_err_kind hp
            | ok kv =>
              obtain ⟨k, v⟩ := kv
              obtain ⟨kd, hk⟩ := parseMapExpr_ok_key_lookup hp
              rw [parse_step_map_ok hfrom hl hm2 hp hk]
              exact ih schema v emptyVarType
          | false =>
            cases hg2 : getMessageType schema expr with
            | none => rw [parse_step_struct_missing hfrom hl hm2 hne hg2]; rfl
            | some msg => rw [parse_step_struct_found hfrom hl hm2 hne hg2]; rfl

/-! ## Inversion of the `Parse` entry point -/

theorem parseText_success {schema : WebRPCSchema} {s : Str} {t : VarType}
    (h : parseText schema s = some (t, none)) :
    s ≠ [] ∧ ∃ t2 canon,
      parseVarTypeExpr (s.length + 1) schema s (mkRaw s) = (t2, none) ∧
      buildVarTypeExpr t2 [] = some canon ∧
      t = ⟨canon, t2.typOf, t2.listOf, t2.mapOf, t2.structOf⟩ := by
  unfold parseText VarType.Parse at h
  simp only [mkRaw, VarType.exprOf] at h
  by_cases hsne : s = []
  · rw [if_pos hsne] at h
    simp at h
  · rw [if_neg hsne] at h
    refine ⟨hsne, ?_⟩
    rcases hp : parseVarTypeExpr (s.length + 1) schema s ⟨s, .T_Unknown, none, none, none⟩
      with ⟨t2, e2⟩
    rw [hp] at h
    cases e2 with
    | some e => simp at h
    | none =>
      simp only [] at h
      rcases hb : buildVarTypeExpr t2 [] with - | canon
      · rw [hb] at h
        simp at h
      · rw [hb] at h
        simp only [Option.some.injEq, Prod.mk.injEq, and_true] at h
        exact ⟨t2, canon, hp, hb, h.symm⟩

/-- C1: corrected.  Counterexample to the claim as stated: `parse("[]")`
succeeds (empty catalog), its canonical text is `"[]<unknown>"`, and parsing
that canonical text fails with `UnknownType`, so
`parse(serialize(parse(x)))` does not succeed for every successfully parsed
`x`. -/
theorem C1_counterexample :
    parseOutcome emptySchema ("[]".toList) = some none
      ∧ canonOf emptySchema ("[]".toList) = some ("[]<unknown>".toList)
      ∧ parseOutcome emptySchema ("[]<unknown>".toList)
          = some (some (.unknownType ("<unknown>".toList))) := by
  exact ⟨rfl, rfl, rfl⟩

/-- C1 amended: for every input `s` whose parse succeeds with a tree that
contains no Unknown-kind node, the canonical text equals the input and
re-parsing the canonical text yields the identical tree with the identical
canonical text; hence `serialize(parse(serialize(parse(x))))` is textually
identical to `serialize(parse(x))` for all such inputs. -/
theorem C1_amended_round_trip {schema : WebRPCSchema} {s : Str} {t : VarType}
    (h : parseText schema s = some (t, none)) (hu : hasUnknownB t = false) :
    t.exprOf = s ∧ parseText schema t.exprOf = some (t, none) := by
  obtain ⟨hsne, t2, canon, hp, hb, ht⟩ := parseText_success h
  rcases t2 with ⟨e2, ty2, l2, m2, s2⟩
  simp only [VarType.typOf, VarType.listOf, VarType.mapOf, VarType.structOf] at ht
  subst ht
  have hu2 : hasUnknownB ⟨e2, ty2, l2, m2, s2⟩ = false := by
    rw [hasUnknownB_mk_expr e2 canon]
    exact hu
  have hcanon := parse_canon (s.length + 1) schema s (mkRaw s) _ hp hsne hu2
  rw [hb] at hcanon
  have hcs : canon = s := by simpa using hcanon
  subst hcs
  exact ⟨rfl, h⟩

/-- Witness for C1: the concrete input `map<string,[]User>` (catalog
containing message `User`) parses with no Unknown node, its canonical text is
the input itself, and re-parsing reproduces the same tree. -/
theorem C1_witness :
    (VarType.mk ("map<string,[]User>".toList) .T_Map none
        (some ⟨.T_String, some ⟨"[]User".toList, .T_List,
          some ⟨some ⟨"User".toList, .T_Struct, none, none,
            some ⟨"User".toList, some ⟨"User".toList⟩⟩⟩⟩, none, none⟩⟩) none).exprOf
      = "map<string,[]User>".toList
    ∧ parseText ⟨[⟨"User".toList⟩]⟩
        ((VarType.mk ("map<string,[]User>".toList) .T_Map none
          (some ⟨.T_String, some ⟨"[]User".toList, .T_List,
            some ⟨some ⟨"User".toList, .T_Struct, none, none,
              some ⟨"User".toList, some ⟨"User".toList⟩⟩⟩⟩, none, none⟩⟩) none).exprOf)
      = some (VarType.mk ("map<string,[]User>".toList) .T_Map none
          (some ⟨.T_String, some ⟨"[]User".toList, .T_List,
            some ⟨some ⟨"User".toList, .T_Struct, none, none,
              some ⟨"User".toList, some ⟨"User".toList⟩⟩⟩⟩, none, none⟩⟩) none, none) :=
  C1_amended_round_trip (by rfl) (by rfl)

/-- C2: corrected.  Counterexample to the claim as stated: `parse("[]")`
succeeds but the resulting tree does contain an Unknown-kind node (the list
element, whose sub-expression is empty). -/
theorem C2_counterexample :
    parseOutcome emptySchema ("[]".toList) = some none
      ∧ (parseText emptySchema ("[]".toList)).map (fun r => hasUnknownB r.1)
          = some true := by
  exact ⟨rfl, rfl⟩

/-- C2 amended: for every input whose parse succeeds, every List node of
the resulting tree has a non-null element TypeExpression and every Map node
has a non-null value TypeExpression (and every Struct node a non-null struct
payload); however the nested expression may be of Unknown kind when its
sub-expression text is empty (e.g. input `"[]"`). -/
theorem C2_amended_payloads {schema : WebRPCSchema} {s : Str} {t : VarType}
    (h : parseText schema s = some (t, none)) :
    payloadsOK t = true := by
  obtain ⟨hsne, t2, canon, hp, hb, ht⟩ := parseText_success h
  rcases t2 with ⟨e2, ty2, l2, m2, s2⟩
  simp only [VarType.typOf, VarType.listOf, VarType.mapOf, VarType.structOf] at ht
  subst ht
  have h2 := parse_payloads (s.length + 1) schema s (mkRaw s) _ hp rfl
  rw [payloadsOK_mk_expr canon e2]
  exact h2

/-- Witness for C2: the parse of `[]uint32` succeeds and the amended payload
invariant holds on its tree. -/
theorem C2_witness :
    payloadsOK (VarType.mk ("[]uint32".toList) .T_List
      (some ⟨some ⟨"uint32".toList, .T_Uint32, none, none, none⟩⟩) none none)
      = true :=
  C2_amended_payloads (show parseText emptySchema ("[]uint32".toList)
    = some (VarType.mk ("[]uint32".toList) .T_List
        (some ⟨some ⟨"uint32".toList, .T_Uint32, none, none, none⟩⟩) none none,
      none) from rfl)

/-- C3: corrected.  Counterexample to the claim as stated: `"map<a,b,c>"`
fails, but with the `invalid map key` error (key `a`, split at the first
comma), not with an `invalid map syntax` error. -/
theorem C3_counterexample :
    parseOutcome emptySchema ("map<a,b,c>".toList)
        = some (some (.invalidMapKey ("a".toList) ("a,b,c".toList)))
      ∧ isMapSyntaxErr (some (.invalidMapKey ("a".toList) ("a,b,c".toList)))
          = false := by
  exact ⟨rfl, rfl⟩

/-- C3 amended: the expression `"map<string>"` (no comma) and `"map<string,uint32"`
(missing trailing `>`) fail with `InvalidMapSyntax`; `"map<a,b,c>"` also
fails to parse, but with `InvalidMapKeyType` (`invalid map key`), because the
expression is split at the first comma and the key `a` is not whitelisted —
multiple top-level commas are not themselves detected as a syntax error. -/
theorem C3_amended_errors :
    parseOutcome emptySchema ("map<string>".toList)
        = some (some (.invalidMapSyntax ("string".toList)))
      ∧ parseOutcome emptySchema ("map<string,uint32".toList)
          = some (some (.invalidMapSyntax ("<string,uint32".toList)))
      ∧ parseOutcome emptySchema ("map<a,b,c>".toList)
          = some (some (.invalidMapKey ("a".toList) ("a,b,c".toList))) := by
  exact ⟨rfl, rfl, rfl⟩

/-- C4: corrected.  Counterexample to the "no partially-built TypeExpression
is observable" half of the claim: `Parse` of `"[]Bogus"` (empty catalog)
fails with `UnknownType`, yet the caller's `VarType` has been mutated to kind
List with an allocated list payload. -/
theorem C4_counterexample :
    parseOutcome emptySchema ("[]Bogus".toList)
        = some (some (.unknownType ("Bogus".toList)))
      ∧ (parseText emptySchema ("[]Bogus".toList)).map (fun r => r.1.typOf)
          = some .T_List
      ∧ (parseText emptySchema ("[]Bogus".toList)).map (fun r => r.1.listOf.isSome)
          = some true := by
  exact ⟨rfl, rfl, rfl⟩

/-- C4 amended: an error at any recursion depth propagates unchanged — in
the list branch the parser's error outcome is exactly the error outcome of
the recursive parse of the element sub-expression, and in the map branch it
is exactly that of the recursive parse of the value substring; however the
caller's `VarType` may retain partially-built state (kind and payload set)
after a failure. -/
theorem C4_amended_propagation (fuel : Nat) (schema : WebRPCSchema)
    (expr : Str) (vt : VarType) :
    (DataTypeFromString expr = none → isListExpr expr = true →
      (parseVarTypeExpr (fuel + 1) schema expr vt).2
        = (parseVarTypeExpr fuel schema (expr.drop 2) emptyVarType).2)
    ∧ (∀ k v kd, DataTypeFromString expr = none → isListExpr expr = false →
        parseMapExpr expr = .ok (k, v) → DataTypeFromString k = some kd →
        (parseVarTypeExpr (fuel + 1) schema expr vt).2
          = (parseVarTypeExpr fuel schema v emptyVarType).2) := by
  constructor
  · intro hfrom hl
    rw [parse_step_list hfrom hl]
  · intro k v kd hfrom hl hp hk
    rw [parse_step_map_ok hfrom hl (parseMapExpr_ok_isMap hp) hp hk]

/-- Witness for C4: at the concrete failing input `[]Bogus` the whole parse's
error outcome equals the recursive parse's error outcome on `Bogus`. -/
theorem C4_witness :
    (parseVarTypeExpr 8 emptySchema ("[]Bogus".toList) (mkRaw ("[]Bogus".toList))).2
      = (parseVarTypeExpr 7 emptySchema ("Bogus".toList) emptyVarType).2 :=
  (C4_amended_propagation 7 emptySchema ("[]Bogus".toList)
    (mkRaw ("[]Bogus".toList))).1 (by decide) (by decide)

/-- C5: confirmed.  Every expression accepted by `parseMapExpr` is exactly
`map<` ++ key ++ `,` ++ value ++ `>` with the trailing `>` as its last
character, the key is the comma-free segment before the first comma of the
bracket contents, the value is everything after that comma, and acceptance
requires the key to pass the `isValidVarKeyType` whitelist. -/
theorem C5_map_shape {expr k v : Str} (h : parseMapExpr expr = .ok (k, v)) :
    expr = "map<".toList ++ k ++ ",".toList ++ v ++ ">".toList
      ∧ k.contains ',' = false ∧ isValidVarKeyType k = true :=
  parseMapExpr_ok_decomp h

/-- Witness for C5 at the concrete input `map<string,uint32>`. -/
theorem C5_witness :
    "map<string,uint32>".toList
        = "map<".toList ++ "string".toList ++ ",".toList
            ++ "uint32".toList ++ ">".toList
      ∧ ("string".toList).contains ',' = false
      ∧ isValidVarKeyType ("string".toList) = true :=
  C5_map_shape (show parseMapExpr ("map<string,uint32>".toList)
    = .ok ("string".toList, "uint32".toList) from rfl)

/-- C6: confirmed.  Primitive lookup runs before struct resolution: for every
catalog (including one containing a message with the same name) and every
string in the primitive registry, parsing succeeds immediately with the
primitive kind (a scalar, not List/Map/Struct/Unknown), no payload is
allocated, and the canonical text is the registry spelling, which equals the
input. -/
theorem C6_primitive_first {schema : WebRPCSchema} {s : Str} {dt : DataType}
    (h : DataTypeFromString s = some dt) :
    parseText schema s = some (⟨s, dt, none, none, none⟩, none)
      ∧ DataTypeToString dt = s
      ∧ dt ≠ .T_List ∧ dt ≠ .T_Map ∧ dt ≠ .T_Struct ∧ dt ≠ .T_Unknown := by
  obtain ⟨hTo, hL, hM, hS, hU⟩ := fromString_sound h
  have hsne : s ≠ [] := by
    rintro rfl
    rw [show DataTypeFromString ([] : Str) = none from rfl] at h
    simp at h
  refine ⟨?_, hTo, hL, hM, hS, hU⟩
  unfold parseText VarType.Parse
  simp only [mkRaw, VarType.exprOf]
  rw [if_neg hsne]
  rw [show parseVarTypeExpr (s.length + 1) schema s ⟨s, .T_Unknown, none, none, none⟩
      = (⟨s, dt, none, none, none⟩, none) from
    parse_step_prim hsne h hL hM hU]
  simp only []
  rw [show buildVarTypeExpr ⟨s, dt, none, none, none⟩ []
      = some ([] ++ DataTypeToString dt) from build_default hL hM hS hU]
  simp [VarType.typOf, VarType.listOf, VarType.mapOf, VarType.structOf, hTo]

/-- Witness for C6: `string` parses as the primitive string type even when
the catalog contains a message named `string`. -/
theorem C6_witness :
    parseText ⟨[⟨"string".toList⟩]⟩ ("string".toList)
        = some (⟨"string".toList, .T_String, none, none, none⟩, none)
      ∧ DataTypeToString .T_String = "string".toList
      ∧ DataType.T_String ≠ .T_List ∧ DataType.T_String ≠ .T_Map
      ∧ DataType.T_String ≠ .T_Struct ∧ DataType.T_String ≠ .T_Unknown :=
  C6_primitive_first (by decide)

/-- C7: confirmed.  For a non-empty expression that is not a primitive
spelling, does not start with `[]` and does not start with `map<`, parsing
succeeds exactly when the catalog holds a message whose name equals the
expression (name-exact lookup, the first such message is referenced); on
success the result is a Struct holding the name and the message, on failure
the error is `UnknownType` with no further fallback. -/
theorem C7_struct_resolution {schema : WebRPCSchema} {e : Str}
    (h1 : DataTypeFromString e = none) (h2 : isListExpr e = false)
    (h3 : isMapExpr e = false) (h4 : e ≠ []) :
    (∀ m, getMessageType schema e = some m →
        parseText schema e
          = some (⟨e, .T_Struct, none, none, some ⟨e, some m⟩⟩, none))
      ∧ (getMessageType schema e = none →
          parseText schema e
            = some (⟨e, .T_Unknown, none, none, none⟩, some (.unknownType e)))
      ∧ ((getMessageType schema e).isSome = true
          ↔ e ∈ schema.Messages.map Message.Name) := by
  refine ⟨?_, ?_, ?_⟩
  · intro m hg
    unfold parseText VarType.Parse
    simp only [mkRaw, VarType.exprOf]
    rw [if_neg h4]
    rw [show parseVarTypeExpr (e.length + 1) schema e ⟨e, .T_Unknown, none, none, none⟩
        = (⟨e, .T_Struct, none, none, some ⟨e, some m⟩⟩, none) from
      parse_step_struct_found h1 h2 h3 h4 hg]
    simp only []
    rw [show buildVarTypeExpr ⟨e, .T_Struct, none, none, some ⟨e, some m⟩⟩ []
        = some ([] ++ e) from by simp [buildVarTypeExpr]]
    simp [VarType.typOf, VarType.listOf, VarType.mapOf, VarType.structOf]
  · intro hg
    unfold parseText VarType.Parse
    simp only [mkRaw, VarType.exprOf]
    rw [if_neg h4]
    rw [show parseVarTypeExpr (e.length + 1) schema e ⟨e, .T_Unknown, none, none, none⟩
        = (⟨e, .T_Unknown, none, none, none⟩, some (.unknownType e)) from by
      simpa [VarType.listOf, VarType.mapOf, VarType.structOf] using
        parse_step_struct_missing h1 h2 h3 h4 hg]
  · simp only [getMessageType, List.find?_isSome, List.mem_map]
    constructor
    · rintro ⟨msg, hmem, hbeq⟩
      exact ⟨msg, hmem, (by simpa using hbeq : e = msg.Name).symm⟩
    · rintro ⟨msg, hmem, hname⟩
      exact ⟨msg, hmem, by simp [hname]⟩

/-- Witness for C7: with a catalog containing only `User`, the input `User`
resolves to a Struct referencing that message. -/
theorem C7_witness :
    (∀ m, getMessageType ⟨[⟨"User".toList⟩]⟩ ("User".toList) = some m →
        parseText ⟨[⟨"User".toList⟩]⟩ ("User".toList)
          = some (⟨"User".toList, .T_Struct, none, none,
              some ⟨"User".toList, some m⟩⟩, none))
      ∧ (getMessageType ⟨[⟨"User".toList⟩]⟩ ("User".toList) = none →
          parseText ⟨[⟨"User".toList⟩]⟩ ("User".toList)
            = some (⟨"User".toList, .T_Unknown, none, none, none⟩,
                some (.unknownType ("User".toList))))
      ∧ ((getMessageType ⟨[⟨"User".toList⟩]⟩ ("User".toList)).isSome = true
          ↔ "User".toList ∈ (WebRPCSchema.mk [⟨"User".toList⟩]).Messages.map
              Message.Name) :=
  C7_struct_resolution (by decide) (by decide) (by decide) (by decide)

/-! ## The checked (panic-aware) models agree with the total models -/

theorem parseMapExprChk_eq (s : Str) : parseMapExprChk s = some (parseMapExpr s) := by
  cases hm : isMapExpr s with
  | false =>
    unfold parseMapExprChk parseMapExpr
    rw [hm]
    rfl
  | true =>
    have hdec := isMapExpr_decomp hm
    generalize hrest : s.drop 4 = rest at hdec
    rcases List.eq_nil_or_concat rest with hnil | ⟨mid, c, hcat⟩
    · subst hnil
      rw [hdec]
      rfl
    · rw [List.concat_eq_append] at hcat
      subst hcat
      rw [hdec] at hm ⊢
      clear hdec hrest
      simp only [parseMapExprChk, parseMapExpr, hm]
      have hA : goSliceFrom ('m' :: 'a' :: 'p' :: '<' :: (mid ++ [c]) : Str)
          (DataTypeToString .T_Map).length = some ('<' :: (mid ++ [c])) := by
        unfold goSliceFrom goSlice
        rw [if_pos ⟨by simp only [DataTypeToString, List.length_cons,
          List.length_append, List.length_nil, String.toList]; omega, le_refl _⟩]
        simp [List.take_length, DataTypeToString]
      have hB : goSlice ('<' :: (mid ++ [c]) : Str) 0 1 = some ['<'] := by
        unfold goSlice
        rw [if_pos ⟨Nat.zero_le 1, by simp⟩]
        simp
      have hC : ('<' :: (mid ++ [c]) : Str).length = (mid.length + 1) + 1 := by
        simp
      have hE : ('<' :: (mid ++ [c]) : Str).drop (mid.length + 1) = [c] := by
        rw [List.drop_succ_cons, List.drop_left]
      have hD : goSliceFrom ('<' :: (mid ++ [c]) : Str) (mid.length + 1) = some [c] := by
        unfold goSliceFrom goSlice
        rw [if_pos ⟨by simp, le_refl _⟩]
        rw [List.take_length, hE]
      have hF : goSlice ('<' :: (mid ++ [c]) : Str) 1 (mid.length + 1) = some mid := by
        unfold goSlice
        rw [if_pos ⟨by omega, by simp⟩]
        rw [List.take_succ_cons, List.take_left, List.drop_succ_cons, List.drop_zero]
      have hG : ((('<' :: (mid ++ [c]) : Str).drop 1).dropLast) = mid := by
        rw [List.drop_succ_cons, List.drop_zero, List.dropLast_concat]
      rw [hA]
      simp only [show (('m' :: 'a' :: 'p' :: '<' :: (mid ++ [c]) : Str)).drop
          (DataTypeToString .T_Map).length = '<' :: (mid ++ [c]) from rfl,
        hB, hC, hD, hF, hG, Nat.add_sub_cancel, hE,
        List.take_succ_cons, List.take_zero]
      have t1 : ((true : Bool) = false) = False :=
        eq_false (by decide)
      have t2 : ((['<'] : Str) ≠ "<".toList) = False :=
        eq_false (by decide)
      by_cases hc : c = '>'
      · subst hc
        have t3 : ((['>'] : Str) ≠ ">".toList) = False :=
          eq_false (by decide)
        simp only [t1, t2, t3, if_false]
        cases hidx : mid.findIdx? (fun ch => ch = ',') with
        | none => rfl
        | some p =>
          simp only []
          obtain ⟨-, -, hplen⟩ := findIdx_comma_decomp hidx
          have hH : goSlice mid 0 p = some (mid.take p) := by
            unfold goSlice
            rw [if_pos ⟨Nat.zero_le p, Nat.le_of_lt hplen⟩]
            simp
          have hI : goSliceFrom mid (p + 1) = some (mid.drop (p + 1)) := by
            unfold goSliceFrom goSlice
            rw [if_pos ⟨by omega, le_refl _⟩]
            rw [List.take_length]
          simp only [hH, hI]
          cases hkey : isValidVarKeyType (mid.take p) with
          | false => rfl
          | true => rfl
      · have t4 : (([c] : Str) ≠ ">".toList) = True :=
          eq_true (by simpa using hc)
        simp only [t1, t2, t4, if_false, if_true]

theorem UnmarshalJSONChk_eq (b : Str) : UnmarshalJSONChk b = some (UnmarshalJSON b) := by
  unfold UnmarshalJSONChk UnmarshalJSON
  by_cases hlen : b.length ≤ 2
  · rw [if_pos hlen, if_pos hlen]
  · rw [if_neg hlen, if_neg hlen]
    have h3 : 3 ≤ b.length := by omega
    have hB : goSlice b 0 1 = some (b.take 1) := by
      unfold goSlice
      rw [if_pos ⟨Nat.zero_le 1, by omega⟩]
      simp
    have hC : b.length = (b.length - 1) + 1 := by omega
    have hD : goSliceFrom b (b.length - 1) = some (b.drop (b.length - 1)) := by
      unfold goSliceFrom goSlice
      rw [if_pos ⟨by omega, le_refl _⟩]
      rw [List.take_length]
    have hE : goSliceFrom b 1 = some (b.drop 1) := by
      unfold goSliceFrom goSlice
      rw [if_pos ⟨by omega, le_refl _⟩]
      rw [List.take_length]
    have hlen1 : (b.drop 1).length = (b.length - 2) + 1 := by
      simp; omega
    have hF : goSlice (b.drop 1) 0 (b.length - 2) = some ((b.drop 1).dropLast) := by
      unfold goSlice
      rw [if_pos ⟨Nat.zero_le _, by simp; omega⟩]
      rw [List.drop_zero, List.dropLast_eq_take]
      congr 1
      simp
      omega
    rw [hB]
    simp only []
    cases hq : decide (b.take 1 ≠ "\"".toList) with
    | true =>
      have hq2 : b.take 1 ≠ "\"".toList := of_decide_eq_true hq
      rw [if_pos hq2, if_pos hq2]
    | false =>
      have hq2 : ¬(b.take 1 ≠ "\"".toList) := of_decide_eq_false hq
      rw [if_neg hq2, if_neg hq2]
      conv_lhs => rw [hC]
      simp only [hD]
      cases hq3 : decide (b.drop (b.length - 1) ≠ "\"".toList) with
      | true =>
        have hq4 := of_decide_eq_true hq3
        rw [if_pos hq4, if_pos hq4]
      | false =>
        have hq4 := of_decide_eq_false hq3
        rw [if_neg hq4, if_neg hq4]
        rw [hE]
        simp only [hlen1, hF]

theorem Parse_isSome (schema : WebRPCSchema) (t : VarType) :
    (VarType.Parse schema t).isSome = true := by
  unfold VarType.Parse
  by_cases hne : t.exprOf = []
  · rw [if_pos hne]
    rfl
  · rw [if_neg hne]
    rcases hp : parseVarTypeExpr (t.exprOf.length + 1) schema t.exprOf t with ⟨t2, e2⟩
    cases e2 with
    | some e => rfl
    | none =>
      have hbs := parse_build_isSome (t.exprOf.length + 1) schema t.exprOf t t2 hp hne []
      cases hb : buildVarTypeExpr t2 [] with
      | none => rw [hb] at hbs; simp at hbs
      | some canon => simp only [hb]; rfl

/-- C8: confirmed.  Parsing always returns a value and never panics: the
`Parse` entry point yields a result (tree or error) for every schema and
every incoming `VarType`, and the panic-aware models of `parseMapExpr` and
`UnmarshalJSON` — in which every raw Go slicing operation is bounds-checked
and `none` stands for a runtime panic — agree with the total models on every
input, so every slicing operation is in bounds. -/
theorem C8_no_panic :
    (∀ (schema : WebRPCSchema) (t : VarType), (VarType.Parse schema t).isSome = true)
      ∧ (∀ s : Str, parseMapExprChk s = some (parseMapExpr s))
      ∧ (∀ b : Str, UnmarshalJSONChk b = some (UnmarshalJSON b)) :=
  ⟨Parse_isSome, parseMapExprChk_eq, UnmarshalJSONChk_eq⟩

/-- C9: confirmed.  The recursion of `ParseVarTypeExpr` is bounded by the
input length: any fuel above the expression length produces the identical
result as fuel `length + 1` (so the recursion terminates within `length`
nested calls for every finite input), and the map branch recurses on a value
substring that is strictly shorter than the enclosing expression. -/
theorem C9_termination {f : Nat} (schema : WebRPCSchema) (expr : Str)
    (vt : VarType) (hf : expr.length < f) :
    parseVarTypeExpr f schema expr vt
        = parseVarTypeExpr (expr.length + 1) schema expr vt
      ∧ ∀ k v : Str, parseMapExpr expr = .ok (k, v) → v.length < expr.length :=
  ⟨parse_fuel_congr f (expr.length + 1) schema expr vt hf (Nat.lt_succ_self _),
   fun _ _ hp => (parseMapExpr_ok_len hp).1⟩

/-- Witness for C9 at the concrete input `map<string,[]uint32>` with fuel 50. -/
theorem C9_witness :
    parseVarTypeExpr 50 emptySchema ("map<string,[]uint32>".toList)
        (mkRaw ("map<string,[]uint32>".toList))
      = parseVarTypeExpr (("map<string,[]uint32>".toList).length + 1) emptySchema
          ("map<string,[]uint32>".toList) (mkRaw ("map<string,[]uint32>".toList))
    ∧ ∀ k v : Str, parseMapExpr ("map<string,[]uint32>".toList) = .ok (k, v) →
        v.length < ("map<string,[]uint32>".toList).length :=
  C9_termination emptySchema ("map<string,[]uint32>".toList)
    (mkRaw ("map<string,[]uint32>".toList)) (by decide)

/-- C10: confirmed.  The `invalid map key type` branch in
`ParseVarTypeExpr`'s map case is unreachable: no parse, at any fuel, with any
schema, input or incoming `VarType`, ever returns that error, because
whenever `parseMapExpr` returns a key without error that key already passed
`isValidVarKeyType` and hence is present in `DataTypeFromString`. -/
theorem C10_keytype_unreachable :
    (∀ (fuel : Nat) (schema : WebRPCSchema) (expr : Str) (vt : VarType),
        isKeyTypeErr (parseVarTypeExpr fuel schema expr vt).2 = false)
      ∧ (∀ expr k v : Str, parseMapExpr expr = .ok (k, v) →
          (DataTypeFromString k).isSome = true) := by
  constructor
  · exact parse_no_keytype_err
  · intro expr k v hp
    obtain ⟨kd, hk⟩ := parseMapExpr_ok_key_lookup hp
    rw [hk]
    rfl

/-- Witness for C10: the re-lookup error does not occur at a concrete map
input, and the key of `map<string,uint32>` is present in the registry. -/
theorem C10_witness :
    isKeyTypeErr (parseVarTypeExpr 12 emptySchema ("map<a,b,c>".toList)
        (mkRaw ("map<a,b,c>".toList))).2 = false
      ∧ (DataTypeFromString ("string".toList)).isSome = true :=
  ⟨C10_keytype_unreachable.1 12 emptySchema ("map<a,b,c>".toList)
      (mkRaw ("map<a,b,c>".toList)),
   C10_keytype_unreachable.2 ("map<string,uint32>".toList) ("string".toList)
      ("uint32".toList) (by rfl)⟩

end Webrpc
